import Mathlib

/-!
# namedavatar: a shallow embedding of `src/assets/js/namedavatar-vue.js`

The file embeds the name picker (`AvatarName.prototype.getName`), the font
fitter (`AvatarImage.prototype.getFontSize`), the colour picker
(`AvatarImage.prototype.getBackgroundColor`), the node builder
(`AvatarImage.prototype.createSVG`) and the entry point `namedavatar.getSVG`.

Modelling conventions.

* A JavaScript string is the list of its UTF-16 code units.
* JavaScript numbers are exact rationals.  The division by zero of `getFontSize` on
  the empty label, whose JavaScript result is `Infinity`, is reported as the fault
  `Fault.nonFinite`; a thrown `TypeError` is the fault `Fault.typeError`.
* `undefined` is `none`: an absent key of an options object, the result of a bare
  `return`, an array access out of range.
* `Math.random()` and the browser test of `createSVG` are explicit arguments.
-/

namespace NamedAvatar

/-- A JavaScript string, as the list of its UTF-16 code units. -/
abbrev JSString := List Nat

/-- UTF-16 code units of one Unicode scalar value. -/
def utf16 (c : Char) : List Nat :=
  if c.toNat < 65536 then [c.toNat]
  else [55296 + (c.toNat - 65536) / 1024, 56320 + (c.toNat - 65536) % 1024]

/-- The JavaScript string written as the literal `s`. -/
def js (s : String) : JSString := s.toList.flatMap utf16

/-- The ways in which the embedded code can leave the modelled values. -/
inductive Fault where
  /-- a JavaScript `TypeError` is thrown -/
  | typeError
  /-- a division by zero produced `Infinity` or `NaN` -/
  | nonFinite
  deriving DecidableEq, Repr

/-- Equality of results is decidable, so that closed instances evaluate. -/
instance instDecidableEqResult {α : Type} [DecidableEq α] : DecidableEq (Except Fault α)
  | .ok a, .ok b => if h : a = b then isTrue (by rw [h]) else isFalse (fun e => h (Except.ok.inj e))
  | .error a, .error b =>
    if h : a = b then isTrue (by rw [h]) else isFalse (fun e => h (Except.error.inj e))
  | .ok _, .error _ => isFalse (fun e => Except.noConfusion e)
  | .error _, .ok _ => isFalse (fun e => Except.noConfusion e)

/-- The values a caller may pass as `fullName`. -/
inductive JSValue where
  | undefined
  | null
  | boolean (b : Bool)
  /-- a finite number -/
  | number (q : ℚ)
  | nan
  | string (s : JSString)
  deriving DecidableEq

/-- JavaScript truthiness (`ToBoolean`). -/
def JSValue.truthy : JSValue → Bool
  | .undefined => false
  | .null => false
  | .boolean b => b
  | .number q => decide (q ≠ 0)
  | .nan => false
  | .string s => !s.isEmpty

/-! ## `String.prototype.toUpperCase`

Unicode 14.0 full upper-case mapping of the Basic Multilingual Plane
(`UnicodeData.txt` simple mappings and the unconditional entries of
`SpecialCasing.txt`).  Surrogate code units are left as they are. -/

/-- Simple upper-case mappings as arithmetic runs `(lo, hi, step, base)`: a code unit
`c` with `lo ≤ c ≤ hi` and `(c - lo) % step = 0` maps to `base + (c - lo)`. -/
def upperRanges : List (Nat × Nat × Nat × Nat) :=
  [(97, 122, 1, 65), (181, 181, 1, 924), (224, 246, 1, 192), (248, 254, 1, 216),
   (255, 255, 1, 376), (257, 303, 2, 256), (305, 305, 1, 73), (307, 311, 2, 306),
   (314, 328, 2, 313), (331, 375, 2, 330), (378, 382, 2, 377), (383, 383, 1, 83),
   (384, 384, 1, 579), (387, 389, 2, 386), (392, 392, 1, 391), (396, 396, 1, 395),
   (402, 402, 1, 401), (405, 405, 1, 502), (409, 409, 1, 408), (410, 410, 1, 573),
   (414, 414, 1, 544), (417, 421, 2, 416), (424, 424, 1, 423), (429, 429, 1, 428),
   (432, 432, 1, 431), (436, 438, 2, 435), (441, 441, 1, 440), (445, 445, 1, 444),
   (447, 447, 1, 503), (453, 453, 1, 452), (454, 454, 1, 452), (456, 456, 1, 455),
   (457, 457, 1, 455), (459, 459, 1, 458), (460, 460, 1, 458), (462, 476, 2, 461),
   (477, 477, 1, 398), (479, 495, 2, 478), (498, 498, 1, 497), (499, 499, 1, 497),
   (501, 501, 1, 500), (505, 543, 2, 504), (547, 563, 2, 546), (572, 572, 1, 571),
   (575, 576, 1, 11390), (578, 578, 1, 577), (583, 591, 2, 582), (592, 592, 1, 11375),
   (593, 593, 1, 11373), (594, 594, 1, 11376), (595, 595, 1, 385), (596, 596, 1, 390),
   (598, 599, 1, 393), (601, 601, 1, 399), (603, 603, 1, 400), (604, 604, 1, 42923),
   (608, 608, 1, 403), (609, 609, 1, 42924), (611, 611, 1, 404), (613, 613, 1, 42893),
   (614, 614, 1, 42922), (616, 616, 1, 407), (617, 617, 1, 406), (618, 618, 1, 42926),
   (619, 619, 1, 11362), (620, 620, 1, 42925), (623, 623, 1, 412), (625, 625, 1, 11374),
   (626, 626, 1, 413), (629, 629, 1, 415), (637, 637, 1, 11364), (640, 640, 1, 422),
   (642, 642, 1, 42949), (643, 643, 1, 425), (647, 647, 1, 42929), (648, 648, 1, 430),
   (649, 649, 1, 580), (650, 651, 1, 433), (652, 652, 1, 581), (658, 658, 1, 439),
   (669, 669, 1, 42930), (670, 670, 1, 42928), (837, 837, 1, 921), (881, 883, 2, 880),
   (887, 887, 1, 886), (891, 893, 1, 1021), (940, 940, 1, 902), (941, 943, 1, 904),
   (945, 961, 1, 913), (962, 962, 1, 931), (963, 971, 1, 931), (972, 972, 1, 908),
   (973, 974, 1, 910), (976, 976, 1, 914), (977, 977, 1, 920), (981, 981, 1, 934),
   (982, 982, 1, 928), (983, 983, 1, 975), (985, 1007, 2, 984), (1008, 1008, 1, 922),
   (1009, 1009, 1, 929), (1010, 1010, 1, 1017), (1011, 1011, 1, 895), (1013, 1013, 1, 917),
   (1016, 1016, 1, 1015), (1019, 1019, 1, 1018), (1072, 1103, 1, 1040), (1104, 1119, 1, 1024),
   (1121, 1153, 2, 1120), (1163, 1215, 2, 1162), (1218, 1230, 2, 1217), (1231, 1231, 1, 1216),
   (1233, 1327, 2, 1232), (1377, 1414, 1, 1329), (4304, 4346, 1, 7312), (4349, 4351, 1, 7357),
   (5112, 5117, 1, 5104), (7296, 7296, 1, 1042), (7297, 7297, 1, 1044), (7298, 7298, 1, 1054),
   (7299, 7300, 1, 1057), (7301, 7301, 1, 1058), (7302, 7302, 1, 1066), (7303, 7303, 1, 1122),
   (7304, 7304, 1, 42570), (7545, 7545, 1, 42877), (7549, 7549, 1, 11363), (7566, 7566, 1, 42950),
   (7681, 7829, 2, 7680), (7835, 7835, 1, 7776), (7841, 7935, 2, 7840), (7936, 7943, 1, 7944),
   (7952, 7957, 1, 7960), (7968, 7975, 1, 7976), (7984, 7991, 1, 7992), (8000, 8005, 1, 8008),
   (8017, 8023, 2, 8025), (8032, 8039, 1, 8040), (8048, 8049, 1, 8122), (8050, 8053, 1, 8136),
   (8054, 8055, 1, 8154), (8056, 8057, 1, 8184), (8058, 8059, 1, 8170), (8060, 8061, 1, 8186),
   (8112, 8113, 1, 8120), (8126, 8126, 1, 921), (8144, 8145, 1, 8152), (8160, 8161, 1, 8168),
   (8165, 8165, 1, 8172), (8526, 8526, 1, 8498), (8560, 8575, 1, 8544), (8580, 8580, 1, 8579),
   (9424, 9449, 1, 9398), (11312, 11359, 1, 11264), (11361, 11361, 1, 11360), (11365, 11365, 1, 570),
   (11366, 11366, 1, 574), (11368, 11372, 2, 11367), (11379, 11379, 1, 11378), (11382, 11382, 1, 11381),
   (11393, 11491, 2, 11392), (11500, 11502, 2, 11499), (11507, 11507, 1, 11506), (11520, 11557, 1, 4256),
   (11559, 11559, 1, 4295), (11565, 11565, 1, 4301), (42561, 42605, 2, 42560), (42625, 42651, 2, 42624),
   (42787, 42799, 2, 42786), (42803, 42863, 2, 42802), (42874, 42876, 2, 42873), (42879, 42887, 2, 42878),
   (42892, 42892, 1, 42891), (42897, 42899, 2, 42896), (42900, 42900, 1, 42948), (42903, 42921, 2, 42902),
   (42933, 42947, 2, 42932), (42952, 42954, 2, 42951), (42961, 42961, 1, 42960), (42967, 42969, 2, 42966),
   (42998, 42998, 1, 42997), (43859, 43859, 1, 42931), (43888, 43967, 1, 5024), (65345, 65370, 1, 65313)]
/-- Upper-case mappings to more than one code unit (`SpecialCasing.txt`). -/
def upperSpecial : List (Nat × List Nat) :=
  [(223, [83, 83]), (329, [700, 78]), (496, [74, 780]), (912, [921, 776, 769]),
   (944, [933, 776, 769]), (1415, [1333, 1362]), (7830, [72, 817]), (7831, [84, 776]),
   (7832, [87, 778]), (7833, [89, 778]), (7834, [65, 702]), (8016, [933, 787]),
   (8018, [933, 787, 768]), (8020, [933, 787, 769]), (8022, [933, 787, 834]), (8064, [7944, 921]),
   (8065, [7945, 921]), (8066, [7946, 921]), (8067, [7947, 921]), (8068, [7948, 921]),
   (8069, [7949, 921]), (8070, [7950, 921]), (8071, [7951, 921]), (8072, [7944, 921]),
   (8073, [7945, 921]), (8074, [7946, 921]), (8075, [7947, 921]), (8076, [7948, 921]),
   (8077, [7949, 921]), (8078, [7950, 921]), (8079, [7951, 921]), (8080, [7976, 921]),
   (8081, [7977, 921]), (8082, [7978, 921]), (8083, [7979, 921]), (8084, [7980, 921]),
   (8085, [7981, 921]), (8086, [7982, 921]), (8087, [7983, 921]), (8088, [7976, 921]),
   (8089, [7977, 921]), (8090, [7978, 921]), (8091, [7979, 921]), (8092, [7980, 921]),
   (8093, [7981, 921]), (8094, [7982, 921]), (8095, [7983, 921]), (8096, [8040, 921]),
   (8097, [8041, 921]), (8098, [8042, 921]), (8099, [8043, 921]), (8100, [8044, 921]),
   (8101, [8045, 921]), (8102, [8046, 921]), (8103, [8047, 921]), (8104, [8040, 921]),
   (8105, [8041, 921]), (8106, [8042, 921]), (8107, [8043, 921]), (8108, [8044, 921]),
   (8109, [8045, 921]), (8110, [8046, 921]), (8111, [8047, 921]), (8114, [8122, 921]),
   (8115, [913, 921]), (8116, [902, 921]), (8118, [913, 834]), (8119, [913, 834, 921]),
   (8124, [913, 921]), (8130, [8138, 921]), (8131, [919, 921]), (8132, [905, 921]),
   (8134, [919, 834]), (8135, [919, 834, 921]), (8140, [919, 921]), (8146, [921, 776, 768]),
   (8147, [921, 776, 769]), (8150, [921, 834]), (8151, [921, 776, 834]), (8162, [933, 776, 768]),
   (8163, [933, 776, 769]), (8164, [929, 787]), (8166, [933, 834]), (8167, [933, 776, 834]),
   (8178, [8186, 921]), (8179, [937, 921]), (8180, [911, 921]), (8182, [937, 834]),
   (8183, [937, 834, 921]), (8188, [937, 921]), (64256, [70, 70]), (64257, [70, 73]),
   (64258, [70, 76]), (64259, [70, 70, 73]), (64260, [70, 70, 76]), (64261, [83, 84]),
   (64262, [83, 84]), (64275, [1348, 1350]), (64276, [1348, 1333]), (64277, [1348, 1339]),
   (64278, [1358, 1350]), (64279, [1348, 1341])]
/-- Search of the arithmetic runs of `upperRanges`. -/
def upperSimple : List (Nat × Nat × Nat × Nat) → Nat → Option Nat
  | [], _ => none
  | (lo, hi, step, base) :: rest, c =>
    if lo ≤ c ∧ c ≤ hi ∧ (c - lo) % step = 0 then some (base + (c - lo))
    else upperSimple rest c

/-- Upper-casing of the one-unit string made of the code unit `c`. -/
def upperUnit (c : Nat) : JSString :=
  match upperSpecial.lookup c with
  | some u => u
  | none =>
    match upperSimple upperRanges c with
    | some u => [u]
    | none => [c]

/-- Model of `String.prototype.toUpperCase`, unit by unit.  The program applies it
only to strings of at most one code unit (`s.charAt(0)`, `s[0]`), where it is exact. -/
def toUpperCase : JSString → JSString
  | [] => []
  | c :: cs => upperUnit c ++ toUpperCase cs

/-- Model of `String.prototype.charAt`: the one-unit string at index `i`, or `""`. -/
def charAt (s : JSString) (i : Nat) : JSString := (s.drop i).take 1

/-- Model of `String.prototype.split` with a one-unit separator. -/
def split (sep : Nat) : JSString → List JSString
  | [] => [[]]
  | c :: cs =>
    if c = sep then [] :: split sep cs
    else
      match split sep cs with
      | [] => [[c]]
      | t :: ts => (c :: t) :: ts

/-- Model of `Math.round`: the nearest integer, halves rounded up. -/
def Math.round (x : ℚ) : ℤ := ⌊x + 1 / 2⌋

/-- Model of `Math.floor`. -/
def Math.floor (x : ℚ) : ℤ := ⌊x⌋

/-! ## Options -/

/-- Values of `options.nameType`; `other` is any value that is none of the three
strings the `switch` statements of `getName` test for. -/
inductive NameType where
  | firstName
  | lastName
  | initials
  | other
  deriving DecidableEq, Repr

/-- An options object: the global `namedavatar.options`, the `tempOptions` of a call,
the argument of `config`, or the merged object built by `getSVG`.  A field that is
`none` is a key the object does not have. -/
structure Options where
  nameType : Option NameType
  fontFamily : Option String
  backgroundColors : Option (List String)
  textColor : Option String
  minFontSize : Option ℚ
  maxFontSize : Option ℚ
  backgroundColor : Option String
  width : Option ℚ
  height : Option ℚ
  deriving DecidableEq

/-- The empty object `{}`. -/
def Options.empty : Options :=
  ⟨none, none, none, none, none, none, none, none, none⟩

/-- Model of `extendOptions` (lines 119-128): every key of `options` is assigned to
`target`; the result is `target` after the call. -/
def extendOptions (target options : Options) : Options where
  nameType := options.nameType.orElse fun _ => target.nameType
  fontFamily := options.fontFamily.orElse fun _ => target.fontFamily
  backgroundColors := options.backgroundColors.orElse fun _ => target.backgroundColors
  textColor := options.textColor.orElse fun _ => target.textColor
  minFontSize := options.minFontSize.orElse fun _ => target.minFontSize
  maxFontSize := options.maxFontSize.orElse fun _ => target.maxFontSize
  backgroundColor := options.backgroundColor.orElse fun _ => target.backgroundColor
  width := options.width.orElse fun _ => target.width
  height := options.height.orElse fun _ => target.height

/-- The initial global `namedavatar.options` (lines 134-153). -/
def namedavatar.options : Options where
  nameType := some .lastName
  fontFamily := some "Verdana, Geneva, sans-serif"
  backgroundColors := some ["#1D8FE1", "#E8A010", "#0BA194", "#E8541E"]
  textColor := some "#FFF"
  minFontSize := some 8
  maxFontSize := some 16
  backgroundColor := none
  width := none
  height := none

/-- Model of `namedavatar.config` (lines 159-163) acting on the global options
`global`; the argument `none` is a value that is falsy or not an object. -/
def namedavatar.config (global : Options) (options : Option Options) : Options :=
  match options with
  | some o => extendOptions global o
  | none => global

/-! ## `AvatarName` -/

/-- Model of `AvatarName.prototype.getName` (lines 230-273).  The result `none` is
the `undefined` of the bare `return`. -/
def getName (fullName : JSValue) (options : Options) : Except Fault (Option JSString) :=
  if !fullName.truthy then .ok none
  else
    match fullName with
    | .string (c :: cs) =>
      let fullName : JSString := c :: cs
      if c < 256 then
        let names := split 32 fullName
        let picked : Option JSString :=
          match options.nameType with
          | some .firstName => names.head?
          | some .lastName => names.getLast?
          | some .initials =>
            some (names.foldl (fun acc t => acc ++ toUpperCase (charAt t 0)) [])
          | _ => some fullName
        match picked with
        | none => .error .typeError
        | some name =>
          if name.length > 6 then .ok (some (toUpperCase (charAt name 0)))
          else .ok (some name)
      else
        match options.nameType with
        | some .lastName => .ok (some (fullName.drop (fullName.length - 1)))
        | some .initials => .ok (some (fullName.take 1))
        | some .firstName => .ok (some (fullName.drop 1))
        | _ => .ok (some fullName)
    | _ => .error .typeError

/-! ## `AvatarImage` -/

/-- The object built by `new AvatarImage(name, options)` (lines 1-4); `name` is
`none` when `getName` returned `undefined`. -/
structure AvatarImage where
  name : Option JSString
  options : Options
  deriving DecidableEq

/-- Model of `AvatarImage.prototype.getTextColor` (lines 66-68). -/
def AvatarImage.getTextColor (self : AvatarImage) : Option String := self.options.textColor

/-- Model of `AvatarImage.prototype.getFontFamily` (lines 90-92). -/
def AvatarImage.getFontFamily (self : AvatarImage) : Option String := self.options.fontFamily

/-- The value of `this.options.width || 32` (line 75): an absent or zero width is 32. -/
def AvatarImage.availableWidth (self : AvatarImage) : ℚ :=
  match self.options.width with
  | some w => if w = 0 then 32 else w
  | none => 32

/-- The comparison `x < bound` of JavaScript, false when `bound` is `undefined`. -/
def jsLt (x : ℚ) (bound : Option ℚ) : Bool :=
  match bound with
  | some b => decide (x < b)
  | none => false

/-- The comparison `x > bound` of JavaScript, false when `bound` is `undefined`. -/
def jsGt (x : ℚ) (bound : Option ℚ) : Bool :=
  match bound with
  | some b => decide (x > b)
  | none => false

/-- Model of `AvatarImage.prototype.getFontSize` (lines 73-85).  The result is the
returned font size (`none` is `undefined`) together with the object after the
assignment to `this.name`.  On the empty name the quotient of line 77 is a division
by zero. -/
def AvatarImage.getFontSize (self : AvatarImage) : Except Fault (Option ℚ × AvatarImage) :=
  match self.name with
  | none => .error .typeError
  | some [] => .error .nonFinite
  | some (c :: cs) =>
    let textWidth : ℚ := ((c :: cs).length : ℚ) * (if c < 256 then 3 / 4 else 3 / 2)
    let availableWidth := self.availableWidth
    let fontSize : ℚ := Math.round (availableWidth / textWidth)
    if jsLt fontSize self.options.minFontSize then
      .ok (self.options.maxFontSize, { self with name := some (toUpperCase [c]) })
    else if jsGt fontSize self.options.maxFontSize then
      .ok (self.options.maxFontSize, self)
    else
      .ok (some fontSize, self)

/-- Array access `array[index]` at an integer index: `undefined` out of range. -/
def arrayGet (array : List String) (index : ℤ) : Option String :=
  if index < 0 then none else array[index.toNat]?

/-- Model of `AvatarImage.prototype.getBackgroundColor` (lines 97-111); `random` is
the value of `Math.random()`.  The result `none` is `undefined`, which is what
indexing the palette yields out of range and on the empty palette, where the index
`c % 0` is `NaN`. -/
def AvatarImage.getBackgroundColor (self : AvatarImage) (random : ℚ) :
    Except Fault (Option String) :=
  match self.options.backgroundColor with
  | some color => .ok (some color)
  | none =>
    match self.options.backgroundColors with
    | none => .error .typeError
    | some bgColors =>
      match self.name with
      | some (c :: _) => .ok bgColors[c % bgColors.length]?
      | _ => .ok (arrayGet bgColors (Math.floor (random * bgColors.length)))

/-- The `<text>` node of `createSVG` (lines 37-54).  `legacyBaseline` records which
of the two vertical-centring attributes was set: `dy` (true) or
`alignment-baseline` (false). -/
structure TextNode where
  fill : Option String
  fontSize : Option ℚ
  fontFamily : Option String
  legacyBaseline : Bool
  textContent : Option JSString
  deriving DecidableEq

/-- The `<svg>` node returned by `createSVG`: its `width` and `height` attributes
when set, the `fill` of its `<rect>`, and its `<text>` child when there is one.
Attributes that are the same constant in every avatar are left out. -/
structure SVG where
  width : Option ℚ
  height : Option ℚ
  rectFill : Option String
  text : Option TextNode
  deriving DecidableEq

/-- Model of `AvatarImage.prototype.createSVG` (lines 12-60).  `msBrowser` is the
outcome of the test `document.documentMode || /Edge/.test(navigator.userAgent)`. -/
def AvatarImage.createSVG (self : AvatarImage) (random : ℚ) (msBrowser : Bool) :
    Except Fault SVG :=
  let width : Option ℚ := self.options.width
  let height : Option ℚ :=
    match self.options.width with
    | some w => some (self.options.height.getD w)
    | none => none
  match self.getBackgroundColor random with
  | .error e => .error e
  | .ok fill =>
    match self.name with
    | some (_ :: _) =>
      match self.getFontSize with
      | .error e => .error e
      | .ok (fontSize, self1) =>
        .ok { width := width, height := height, rectFill := fill,
              text := some { fill := self.getTextColor, fontSize := fontSize,
                             fontFamily := self1.getFontFamily, legacyBaseline := msBrowser,
                             textContent := self1.name } }
    | _ => .ok { width := width, height := height, rectFill := fill, text := none }

/-- Model of `namedavatar.getSVG` (lines 199-209) with the global options `global`:
the options of the call are the empty object extended by the global options and
then by `tempOptions`. -/
def namedavatar.getSVG (global : Options) (fullName : JSValue) (tempOptions : Options)
    (random : ℚ) (msBrowser : Bool) : Except Fault SVG :=
  let options := extendOptions (extendOptions Options.empty global) tempOptions
  match getName fullName options with
  | .error e => .error e
  | .ok name => AvatarImage.createSVG { name := name, options := options } random msBrowser

/-! ## Quantities named in the statements -/

/-- The rounded quotient `Math.round(availableWidth / textWidth)` of lines 74-77 for
the non-empty label `c :: cs`. -/
def fittedSize (c : Nat) (cs : JSString) (o : Options) : ℤ :=
  Math.round ((AvatarImage.mk (some (c :: cs)) o).availableWidth /
    (((c :: cs).length : ℚ) * (if c < 256 then 3 / 4 else 3 / 2)))

/-- The `height` attribute that lines 16-22 of `createSVG` set. -/
def svgHeight (o : Options) : Option ℚ :=
  match o.width with
  | some w => some (o.height.getD w)
  | none => none

/-! ## The global options as state -/

/-- The two objects after the call `extendOptions(target, options)` (lines 119-128):
`Object.assign` and the loop of lines 124-126 assign to keys of `target` only. -/
def extendOptionsStore (target options : Options) : Options × Options :=
  (extendOptions target options, options)

/-- State-passing form of `namedavatar.getSVG` (lines 199-209): the returned node
together with the global `namedavatar.options` after the call. -/
def namedavatar.getSVGStore (global : Options) (fullName : JSValue)
    (tempOptions : Options) (random : ℚ) (msBrowser : Bool) : Except Fault SVG × Options :=
  let (options, global) := extendOptionsStore Options.empty global
  let (options, _) := extendOptionsStore options tempOptions
  (match getName fullName options with
    | .error e => .error e
    | .ok name => AvatarImage.createSVG { name := name, options := options } random msBrowser,
   global)

/-- One key of a shallow override: the merged object has the value of `patch` when
`patch` has the key, and the value of `base` otherwise. -/
def KeyOverride {α : Type} (base patch merged : Option α) : Prop :=
  (∀ v, patch = some v → merged = some v) ∧ (patch = none → merged = base)

/-- The object `merged` is the shallow, field-by-field override of `base` by `patch`. -/
def ShallowOverride (base patch merged : Options) : Prop :=
  KeyOverride base.nameType patch.nameType merged.nameType ∧
  KeyOverride base.fontFamily patch.fontFamily merged.fontFamily ∧
  KeyOverride base.backgroundColors patch.backgroundColors merged.backgroundColors ∧
  KeyOverride base.textColor patch.textColor merged.textColor ∧
  KeyOverride base.minFontSize patch.minFontSize merged.minFontSize ∧
  KeyOverride base.maxFontSize patch.maxFontSize merged.maxFontSize ∧
  KeyOverride base.backgroundColor patch.backgroundColor merged.backgroundColor ∧
  KeyOverride base.width patch.width merged.width ∧
  KeyOverride base.height patch.height merged.height

/-! ## Supporting lemmas -/

theorem split_ne_nil (sep : Nat) (s : JSString) : split sep s ≠ [] := by
  induction s with
  | nil => simp [split]
  | cons c cs ih =>
    unfold split
    split_ifs
    · simp
    · cases h : split sep cs <;> simp

/-- The tokens of `split`, joined again by the separator, are the string that was split. -/
theorem split_intercalate (sep : Nat) (s : JSString) :
    [sep].intercalate (split sep s) = s := by
  induction s with
  | nil => simp [split, List.intercalate]
  | cons c cs ih =>
    unfold split
    cases h2 : split sep cs with
    | nil => exact absurd h2 (split_ne_nil sep cs)
    | cons t ts =>
      rw [h2] at ih
      split_ifs with h
      · subst h
        simp only [List.intercalate, List.intersperse, List.flatten] at ih ⊢
        simp [ih]
      · simp only [List.intercalate] at ih ⊢
        cases ts with
        | nil => simpa [List.intersperse] using ih
        | cons u us => simpa [List.intersperse] using ih

/-- No token of `split` contains the separator. -/
theorem split_no_sep (sep : Nat) (s : JSString) : ∀ t ∈ split sep s, sep ∉ t := by
  induction s with
  | nil => simp [split]
  | cons c cs ih =>
    unfold split
    cases h2 : split sep cs with
    | nil => exact absurd h2 (split_ne_nil sep cs)
    | cons t ts =>
      rw [h2] at ih
      split_ifs with h
      · intro u hu
        simp only [List.mem_cons] at hu
        rcases hu with rfl | hu
        · simp
        · exact ih u (List.mem_cons.mpr hu)
      · intro u hu
        simp only [List.mem_cons] at hu
        rcases hu with rfl | hu
        · intro hmem
          rcases List.mem_cons.mp hmem with e | e
          · exact h e.symm
          · exact ih t (List.mem_cons_self _ _) e
        · exact ih u (List.mem_cons_of_mem _ hu)

theorem getLast?_split (sep : Nat) (s : JSString) :
    ∃ t, (split sep s).getLast? = some t := by
  cases h : (split sep s).getLast? with
  | none => exact absurd (List.getLast?_eq_none_iff.mp h) (split_ne_nil sep s)
  | some t => exact ⟨t, rfl⟩

theorem foldl_append_eq_flatMap (f : JSString → JSString) (l : List JSString)
    (acc : JSString) :
    l.foldl (fun acc t => acc ++ f t) acc = acc ++ l.flatMap f := by
  induction l generalizing acc with
  | nil => simp
  | cons t ts ih => simp [ih, List.flatMap_cons]

theorem drop_length_pred (l : JSString) (h : l ≠ []) :
    l.drop (l.length - 1) = [l.getLast h] := by
  induction l with
  | nil => exact absurd rfl h
  | cons a l ih =>
    cases l with
    | nil => rfl
    | cons b l => simpa using ih (by simp)

theorem mem_of_lookup {β : Type} (c : Nat) (u : β) (l : List (Nat × β))
    (h : l.lookup c = some u) : (c, u) ∈ l := by
  induction l with
  | nil => simp at h
  | cons p ps ih =>
    obtain ⟨k, v⟩ := p
    by_cases hk : c = k
    · subst hk
      simp [List.lookup] at h
      simp [h]
    · have : (c == k) = false := by simpa using hk
      simp only [List.lookup, this] at h
      exact List.mem_cons_of_mem _ (ih h)

set_option maxRecDepth 100000 in
theorem upperSpecial_latin :
    ∀ p ∈ upperSpecial, 256 ≤ p.1 ∨ p = (223, [83, 83]) := by decide

set_option maxRecDepth 100000 in
theorem upperSpecial_bounds :
    ∀ p ∈ upperSpecial, 1 ≤ p.2.length ∧ p.2.length ≤ 3 := by decide

/-- Upper-casing one code unit gives between one and three code units. -/
theorem upperUnit_length (c : Nat) :
    1 ≤ (upperUnit c).length ∧ (upperUnit c).length ≤ 3 := by
  unfold upperUnit
  cases h : upperSpecial.lookup c with
  | some u => exact upperSpecial_bounds (c, u) (mem_of_lookup c u _ h)
  | none => cases upperSimple upperRanges c <;> simp

/-- Below 256 only `ß` (223) has an upper-casing of more than one code unit. -/
theorem upperUnit_length_latin (c : Nat) (hc : c < 256) (h223 : c ≠ 223) :
    (upperUnit c).length = 1 := by
  unfold upperUnit
  cases h : upperSpecial.lookup c with
  | some u =>
    rcases upperSpecial_latin (c, u) (mem_of_lookup c u _ h) with h1 | h1
    · exact absurd hc (Nat.not_lt.mpr h1)
    · exact absurd (congrArg Prod.fst h1) h223
  | none => cases upperSimple upperRanges c <;> simp

theorem toUpperCase_singleton (c : Nat) : toUpperCase [c] = upperUnit c := by
  simp [toUpperCase]

/-! ## The name picker -/

/-- C3: for a non-empty full name whose first character code is below 256,
`getName` with nameType `lastName` returns the last token of the split on single
spaces, unchanged, when it has at most 6 characters, and the upper-cased first
character of that token when it has more than 6 characters. -/
theorem getName_lastName_latin (c : Nat) (cs : JSString) (o : Options)
    (hc : c < 256) (ht : o.nameType = some NameType.lastName) :
    ∃ t, (split 32 (c :: cs)).getLast? = some t ∧
      getName (JSValue.string (c :: cs)) o =
        Except.ok (some (if t.length ≤ 6 then t else toUpperCase (charAt t 0))) := by
  obtain ⟨t, h⟩ := getLast?_split 32 (c :: cs)
  refine ⟨t, h, ?_⟩
  simp only [getName, JSValue.truthy, ht, h, hc]
  by_cases h6 : t.length ≤ 6
  · simp [h6, Nat.not_lt.mpr h6]
  · simp [h6, Nat.lt_of_not_le h6]

/-- Instance of C3 at the full name `John Smith` with the default options. -/
theorem getName_lastName_latin_witness :
    ∃ t, (split 32 (js "John Smith")).getLast? = some t ∧
      getName (JSValue.string (js "John Smith")) namedavatar.options =
        Except.ok (some (if t.length ≤ 6 then t else toUpperCase (charAt t 0))) :=
  getName_lastName_latin 74 (js "ohn Smith") namedavatar.options (by decide) rfl

/-- C7: for a non-empty full name whose first character code is below 256,
`getName` with nameType `initials` returns the concatenation, in token order, of the
upper-cased first character of every token of the split on single spaces when that
concatenation has at most 6 characters, and its first character upper-cased
otherwise; `Alexander` gives `A`. -/
theorem getName_initials_latin (c : Nat) (cs : JSString) (o : Options)
    (hc : c < 256) (ht : o.nameType = some NameType.initials) :
    getName (JSValue.string (c :: cs)) o =
        Except.ok (some
          (if ((split 32 (c :: cs)).flatMap fun t => toUpperCase (charAt t 0)).length ≤ 6
           then (split 32 (c :: cs)).flatMap fun t => toUpperCase (charAt t 0)
           else toUpperCase
             (charAt ((split 32 (c :: cs)).flatMap fun t => toUpperCase (charAt t 0)) 0))) ∧
      getName (JSValue.string (js "Alexander")) o = Except.ok (some (js "A")) := by
  constructor
  · simp only [getName, JSValue.truthy, ht, hc, foldl_append_eq_flatMap, List.nil_append]
    generalize ((split 32 (c :: cs)).flatMap fun t => toUpperCase (charAt t 0)) = ini
    by_cases h6 : ini.length ≤ 6
    · simp [h6, Nat.not_lt.mpr h6]
    · simp [h6, Nat.lt_of_not_le h6]
  · simp only [getName, ht]
    decide

/-- Instance of C7 at the full name `Ada Lovelace`. -/
theorem getName_initials_latin_witness :
    getName (JSValue.string (js "Ada Lovelace"))
        { namedavatar.options with nameType := some NameType.initials } =
      Except.ok (some (js "AL")) :=
  (getName_initials_latin 65 (js "da Lovelace")
    { namedavatar.options with nameType := some NameType.initials } (by decide) rfl).1

/-- C8: for a non-empty full name whose first character code is 256 or above,
`getName` returns the single final character of the full name with nameType
`lastName`, the single first character with `initials`, and the full name without
its first character with `firstName`; no token splitting or overflow collapse
takes place. -/
theorem getName_wide (c : Nat) (cs : JSString) (o : Options) (hc : 256 ≤ c) :
    (o.nameType = some NameType.lastName →
      getName (JSValue.string (c :: cs)) o =
        Except.ok (some [(c :: cs).getLast (List.cons_ne_nil c cs)])) ∧
    (o.nameType = some NameType.initials →
      getName (JSValue.string (c :: cs)) o = Except.ok (some [c])) ∧
    (o.nameType = some NameType.firstName →
      getName (JSValue.string (c :: cs)) o = Except.ok (some cs)) := by
  have hlt : ¬ c < 256 := Nat.not_lt.mpr hc
  refine ⟨fun ht => ?_, fun ht => ?_, fun ht => ?_⟩
  · have hd := drop_length_pred (c :: cs) (List.cons_ne_nil c cs)
    simp only [getName, JSValue.truthy, ht, hlt] 
    simpa using hd
  · simp [getName, JSValue.truthy, ht, hlt]
  · simp [getName, JSValue.truthy, ht, hlt]

/-- Instance of C8 at a three-character full name in a wide script. -/
theorem getName_wide_witness :
    getName (JSValue.string [29579, 23567, 26126]) namedavatar.options =
      Except.ok (some [26126]) :=
  (getName_wide 29579 [23567, 26126] namedavatar.options (by decide)).1 rfl

/-! ## The font fitter -/

theorem getFontSize_of_lt (c : Nat) (cs : JSString) (o : Options) (mn : ℚ)
    (hmin : o.minFontSize = some mn) (h : (fittedSize c cs o : ℚ) < mn) :
    AvatarImage.getFontSize ⟨some (c :: cs), o⟩ =
      Except.ok (o.maxFontSize, ⟨some (toUpperCase [c]), o⟩) := by
  unfold fittedSize at h
  simp only [AvatarImage.getFontSize, hmin, jsLt, h, decide_True, if_true]

theorem getFontSize_of_within (c : Nat) (cs : JSString) (o : Options) (mn mx : ℚ)
    (hmin : o.minFontSize = some mn) (hmax : o.maxFontSize = some mx)
    (h1 : mn ≤ (fittedSize c cs o : ℚ)) (h2 : (fittedSize c cs o : ℚ) ≤ mx) :
    AvatarImage.getFontSize ⟨some (c :: cs), o⟩ =
      Except.ok (some (fittedSize c cs o : ℚ), ⟨some (c :: cs), o⟩) := by
  unfold fittedSize at h1 h2
  have h1n := not_lt.mpr h1
  have h2n := not_lt.mpr h2
  simp only [AvatarImage.getFontSize, hmin, hmax, jsLt, jsGt, gt_iff_lt, h1n, h2n,
    decide_False, Bool.false_eq_true, if_false, fittedSize]

theorem getFontSize_of_gt (c : Nat) (cs : JSString) (o : Options) (mn mx : ℚ)
    (hmin : o.minFontSize = some mn) (hmax : o.maxFontSize = some mx)
    (h1 : mn ≤ (fittedSize c cs o : ℚ)) (h2 : mx < (fittedSize c cs o : ℚ)) :
    AvatarImage.getFontSize ⟨some (c :: cs), o⟩ =
      Except.ok (some mx, ⟨some (c :: cs), o⟩) := by
  unfold fittedSize at h1 h2
  have h1n := not_lt.mpr h1
  simp only [AvatarImage.getFontSize, hmin, hmax, jsLt, jsGt, gt_iff_lt, h1n, h2,
    decide_False, decide_True, Bool.false_eq_true, if_false, if_true]

/-- The label `ßabcde` does not fit at the default bounds and is replaced by `SS`, a
string of length 2 (C4 as stated requires length 1). -/
theorem getFontSize_collapse_eszett :
    fittedSize 223 (js "abcde") namedavatar.options = 7 ∧
    namedavatar.options.minFontSize = some 8 ∧
    AvatarImage.getFontSize ⟨some (js "ßabcde"), namedavatar.options⟩ =
      Except.ok (some 16, ⟨some (js "SS"), namedavatar.options⟩) ∧
    (js "SS").length = 2 := by
  have hjs : js "ßabcde" = 223 :: js "abcde" := by decide
  have hss : js "SS" = toUpperCase [223] := by decide
  have hr : fittedSize 223 (js "abcde") namedavatar.options = 7 := by
    have hab : (js "abcde").length = 5 := by decide
    simp only [fittedSize, Math.round, AvatarImage.availableWidth, namedavatar.options,
      List.length_cons, hab]
    norm_num
  refine ⟨hr, rfl, ?_, by decide⟩
  rw [hjs, hss]
  exact getFontSize_of_lt 223 (js "abcde") namedavatar.options 8 rfl (by rw [hr]; norm_num)

/-- C4 (amended): when the rounded quotient is below `minFontSize`, `getFontSize`
returns `maxFontSize` and replaces the label by the upper-casing of its first
character.  That string has between one and three characters, and exactly one
when the first character code is below 256 and is not 223 (`ß`, upper-cased `SS`). -/
theorem getFontSize_collapse (c : Nat) (cs : JSString) (o : Options) (mn mx : ℚ)
    (hmin : o.minFontSize = some mn) (hmax : o.maxFontSize = some mx)
    (h : (fittedSize c cs o : ℚ) < mn) :
    AvatarImage.getFontSize ⟨some (c :: cs), o⟩ =
      Except.ok (some mx, ⟨some (toUpperCase [c]), o⟩) ∧
    1 ≤ (toUpperCase [c]).length ∧ (toUpperCase [c]).length ≤ 3 ∧
    (c < 256 → c ≠ 223 → (toUpperCase [c]).length = 1) := by
  refine ⟨?_, ?_, ?_, ?_⟩
  · rw [getFontSize_of_lt c cs o mn hmin h, hmax]
  · rw [toUpperCase_singleton]; exact (upperUnit_length c).1
  · rw [toUpperCase_singleton]; exact (upperUnit_length c).2
  · intro hc h223
    rw [toUpperCase_singleton]; exact upperUnit_length_latin c hc h223

theorem fittedSize_smithy : fittedSize 115 (js "mithy") namedavatar.options = 7 := by
  have hab : (js "mithy").length = 5 := by decide
  simp only [fittedSize, Math.round, AvatarImage.availableWidth, namedavatar.options,
    List.length_cons, hab]
  norm_num

/-- Instance of C4 (amended) at the label `smithy` with the default options. -/
theorem getFontSize_collapse_witness :
    AvatarImage.getFontSize ⟨some (115 :: js "mithy"), namedavatar.options⟩ =
      Except.ok (some 16, ⟨some (toUpperCase [115]), namedavatar.options⟩) ∧
    (toUpperCase [115]).length = 1 :=
  have h := getFontSize_collapse 115 (js "mithy") namedavatar.options 8 16 rfl rfl
    (by rw [fittedSize_smithy]; norm_num)
  ⟨h.1, h.2.2.2 (by decide) (by decide)⟩

theorem availableWidth_of_width (name : Option JSString) (o : Options) (w : ℚ)
    (hw : (o.width = some w ∧ w ≠ 0) ∨ ((o.width = none ∨ o.width = some 0) ∧ w = 32)) :
    (AvatarImage.mk name o).availableWidth = w := by
  rcases hw with ⟨h, h0⟩ | ⟨h | h, h32⟩
  · simp [AvatarImage.availableWidth, h, h0]
  · simp [AvatarImage.availableWidth, h, h32]
  · simp [AvatarImage.availableWidth, h, h32]

theorem round_eq_of_bounds (x : ℚ) (f : ℤ) (hf1 : (f : ℚ) ≤ x + 1 / 2)
    (hf2 : x + 1 / 2 < (f : ℚ) + 1) : Math.round x = f := by
  unfold Math.round
  rw [Int.floor_eq_iff]
  exact ⟨hf1, hf2⟩

/-- C5: let `w` be the available width, which is `options.width` when that is set
(and not zero) and 32 when it is unset, and let `f` be the integer nearest to
`w / (length(label) * weight)`, halves rounded up, with weight 0.75 if the first
character code of the label is below 256 and 1.5 otherwise.  When
`minFontSize ≤ f ≤ maxFontSize`, `getFontSize` returns exactly `f` and leaves the
label unchanged. -/
theorem getFontSize_within (c : Nat) (cs : JSString) (o : Options) (mn mx w : ℚ) (f : ℤ)
    (hmin : o.minFontSize = some mn) (hmax : o.maxFontSize = some mx)
    (hw : (o.width = some w ∧ w ≠ 0) ∨ ((o.width = none ∨ o.width = some 0) ∧ w = 32))
    (hf1 : (f : ℚ) ≤
      w / (((c :: cs).length : ℚ) * (if c < 256 then 3 / 4 else 3 / 2)) + 1 / 2)
    (hf2 : w / (((c :: cs).length : ℚ) * (if c < 256 then 3 / 4 else 3 / 2)) + 1 / 2 <
      (f : ℚ) + 1)
    (h1 : mn ≤ (f : ℚ)) (h2 : (f : ℚ) ≤ mx) :
    AvatarImage.getFontSize ⟨some (c :: cs), o⟩ =
      Except.ok (some (f : ℚ), ⟨some (c :: cs), o⟩) := by
  have hfit : fittedSize c cs o = f := by
    unfold fittedSize
    rw [availableWidth_of_width _ o w hw]
    exact round_eq_of_bounds _ f hf1 hf2
  rw [← hfit] at h1 h2 ⊢
  exact getFontSize_of_within c cs o mn mx hmin hmax h1 h2

theorem fittedSize_smith : fittedSize 83 (js "mith") namedavatar.options = 9 := by
  have hab : (js "mith").length = 4 := by decide
  simp only [fittedSize, Math.round, AvatarImage.availableWidth, namedavatar.options,
    List.length_cons, hab]
  norm_num

/-- Instance of C5 at the label `smithy` with the default bounds and the width 64:
the quotient 64 / 4.5 rounds to 14, which is returned, and the label is unchanged. -/
theorem getFontSize_within_witness :
    AvatarImage.getFontSize
        ⟨some [115, 109, 105, 116, 104, 121], { namedavatar.options with width := some 64 }⟩ =
      Except.ok (some 14,
        ⟨some [115, 109, 105, 116, 104, 121], { namedavatar.options with width := some 64 }⟩) :=
  getFontSize_within 115 [109, 105, 116, 104, 121]
    { namedavatar.options with width := some 64 } 8 16 64 14 rfl rfl
    (Or.inl ⟨rfl, by norm_num⟩)
    (by simp only [List.length_cons, List.length_nil]; norm_num)
    (by simp only [List.length_cons, List.length_nil]; norm_num)
    (by norm_num) (by norm_num)

/-- With the width unset the available width is 32: the quotient 32 / 3.75 of the
label `Smith` rounds to 9, which is returned with the label unchanged. -/
theorem getFontSize_within_unset :
    AvatarImage.getFontSize ⟨some (83 :: js "mith"), namedavatar.options⟩ =
      Except.ok (some 9, ⟨some (83 :: js "mith"), namedavatar.options⟩) := by
  have h := getFontSize_of_within 83 (js "mith") namedavatar.options 8 16 rfl rfl
    (by rw [fittedSize_smith]; norm_num) (by rw [fittedSize_smith]; norm_num)
  rw [fittedSize_smith] at h
  exact_mod_cast h

/-! ## The colour picker -/

theorem getBackgroundColor_of_label (c : Nat) (cs : JSString) (o : Options)
    (palette : List String) (random : ℚ)
    (hb : o.backgroundColor = none) (hp : o.backgroundColors = some palette) :
    AvatarImage.getBackgroundColor ⟨some (c :: cs), o⟩ random =
      Except.ok palette[c % palette.length]? := by
  simp only [AvatarImage.getBackgroundColor, hb, hp]

theorem getBackgroundColor_of_no_label (name : Option JSString) (o : Options)
    (palette : List String) (random : ℚ) (hn : name = none ∨ name = some [])
    (hb : o.backgroundColor = none) (hp : o.backgroundColors = some palette) :
    AvatarImage.getBackgroundColor ⟨name, o⟩ random =
      Except.ok (arrayGet palette (Math.floor (random * palette.length))) := by
  rcases hn with rfl | rfl <;> simp only [AvatarImage.getBackgroundColor, hb, hp]

/-- C6: without `backgroundColor` in the options, `getBackgroundColor` on a non-empty
label and a non-empty palette returns `palette[i]` for `i` the character code of
the first character modulo the palette length; `i` is a valid index, and every
label with the same first character gets the same index on every palette of the
same length. -/
theorem getBackgroundColor_index (c : Nat) (cs : JSString) (o : Options)
    (palette : List String) (random : ℚ)
    (hb : o.backgroundColor = none) (hp : o.backgroundColors = some palette)
    (hne : palette ≠ []) :
    ∃ h : c % palette.length < palette.length,
      AvatarImage.getBackgroundColor ⟨some (c :: cs), o⟩ random =
        Except.ok (some (palette.get ⟨c % palette.length, h⟩)) ∧
      ∀ (cs1 : JSString) (o1 : Options) (palette1 : List String) (random1 : ℚ),
        o1.backgroundColor = none → o1.backgroundColors = some palette1 →
        palette1.length = palette.length →
        AvatarImage.getBackgroundColor ⟨some (c :: cs1), o1⟩ random1 =
          Except.ok palette1[c % palette.length]? := by
  have hpos : 0 < palette.length := List.length_pos.mpr hne
  refine ⟨Nat.mod_lt c hpos, ?_, ?_⟩
  · rw [getBackgroundColor_of_label c cs o palette random hb hp,
      List.getElem?_eq_getElem (Nat.mod_lt c hpos)]
    rfl
  · intro cs1 o1 palette1 random1 hb1 hp1 hlen
    rw [getBackgroundColor_of_label c cs1 o1 palette1 random1 hb1 hp1, hlen]

/-- Instance of C6 at the label `Smith` with the default palette. -/
theorem getBackgroundColor_index_witness :
    AvatarImage.getBackgroundColor ⟨some (83 :: js "mith"), namedavatar.options⟩ 0 =
      Except.ok (some "#E8541E") :=
  (getBackgroundColor_index 83 (js "mith") namedavatar.options
    ["#1D8FE1", "#E8A010", "#0BA194", "#E8541E"] 0 rfl rfl (by decide)).2.1

/-! ## The composer -/

/-- Copying an options object into the empty object gives the same object. -/
theorem extendOptions_empty (o : Options) : extendOptions Options.empty o = o := by
  have key : ∀ {α : Type} (x : Option α), (x.orElse fun _ => none) = x := by
    intro α x; cases x <;> rfl
  cases o
  simp only [extendOptions, Options.empty, key]

theorem getFontSize_label (c : Nat) (cs : JSString) (o : Options) :
    ∃ fs l, AvatarImage.getFontSize ⟨some (c :: cs), o⟩ = Except.ok (fs, ⟨some l, o⟩) := by
  simp only [AvatarImage.getFontSize]
  split_ifs <;> exact ⟨_, _, rfl⟩

theorem createSVG_of_label (c : Nat) (cs : JSString) (o : Options) (random : ℚ)
    (msBrowser : Bool) (fill : Option String) (fs : Option ℚ) (l : JSString)
    (hfill : AvatarImage.getBackgroundColor ⟨some (c :: cs), o⟩ random = Except.ok fill)
    (hfs : AvatarImage.getFontSize ⟨some (c :: cs), o⟩ = Except.ok (fs, ⟨some l, o⟩)) :
    AvatarImage.createSVG ⟨some (c :: cs), o⟩ random msBrowser =
      Except.ok
        { width := o.width, height := svgHeight o, rectFill := fill,
          text := some { fill := o.textColor, fontSize := fs, fontFamily := o.fontFamily,
                         legacyBaseline := msBrowser, textContent := some l } } := by
  simp only [AvatarImage.createSVG, hfill, hfs, svgHeight, AvatarImage.getTextColor,
    AvatarImage.getFontFamily]

theorem createSVG_of_no_label (name : Option JSString) (o : Options) (random : ℚ)
    (msBrowser : Bool) (fill : Option String) (hn : name = none ∨ name = some [])
    (hfill : AvatarImage.getBackgroundColor ⟨name, o⟩ random = Except.ok fill) :
    AvatarImage.createSVG ⟨name, o⟩ random msBrowser =
      Except.ok { width := o.width, height := svgHeight o, rectFill := fill, text := none } := by
  rcases hn with rfl | rfl <;> simp only [AvatarImage.createSVG, hfill, svgHeight]

theorem getSVG_of_getName (global tempOptions : Options) (fullName : JSValue)
    (random : ℚ) (msBrowser : Bool) (name : Option JSString)
    (hn : getName fullName (extendOptions global tempOptions) = Except.ok name) :
    namedavatar.getSVG global fullName tempOptions random msBrowser =
      AvatarImage.createSVG ⟨name, extendOptions global tempOptions⟩ random msBrowser := by
  simp only [namedavatar.getSVG, extendOptions_empty, hn]

theorem random_index_lt (random : ℚ) (n : Nat) (h0 : 0 ≤ random) (h1 : random < 1)
    (hn : 0 < n) :
    0 ≤ Math.floor (random * n) ∧ (Math.floor (random * n)).toNat < n := by
  unfold Math.floor
  have hn0 : (0 : ℚ) < n := by exact_mod_cast hn
  have hlt : random * n < n := by nlinarith
  have h2 : ⌊random * (n : ℚ)⌋ < (n : ℤ) := by
    rw [Int.floor_lt]; exact_mod_cast hlt
  have h3 : 0 ≤ ⌊random * (n : ℚ)⌋ := Int.floor_nonneg.mpr (by positivity)
  exact ⟨h3, by omega⟩

theorem arrayGet_of_lt (array : List String) (index : ℤ) (h0 : 0 ≤ index)
    (h : index.toNat < array.length) :
    arrayGet array index = some (array.get ⟨index.toNat, h⟩) := by
  unfold arrayGet
  rw [if_neg (not_lt.mpr h0), List.getElem?_eq_getElem h]
  rfl

/-- The label `smithy` collapses to `S` in the fitter, yet the avatar keeps the colour
of slot `115 % 3 = 1`, the slot of `s`; the post-fit label `S` has slot `83 % 3 = 2`
(C1 as stated requires the slot of the post-fit label). -/
theorem getSVG_colour_not_postfit :
    namedavatar.getSVG namedavatar.options (JSValue.string (js "smithy"))
        { Options.empty with backgroundColors := some ["red", "green", "blue"] } 0 false =
      Except.ok
        { width := none, height := none, rectFill := some "green",
          text := some { fill := some "#FFF", fontSize := some 16,
                         fontFamily := some "Verdana, Geneva, sans-serif",
                         legacyBaseline := false, textContent := some (js "S") } } ∧
    (js "S")[0]? = some 83 ∧ ["red", "green", "blue"][83 % 3]? = some "blue" := by
  have hn : getName (JSValue.string (js "smithy"))
      (extendOptions namedavatar.options
        { Options.empty with backgroundColors := some ["red", "green", "blue"] }) =
      Except.ok (some (115 :: js "mithy")) := by decide
  have hfit : fittedSize 115 (js "mithy")
      (extendOptions namedavatar.options
        { Options.empty with backgroundColors := some ["red", "green", "blue"] }) = 7 :=
    fittedSize_smithy
  have hfs := getFontSize_of_lt 115 (js "mithy")
      (extendOptions namedavatar.options
        { Options.empty with backgroundColors := some ["red", "green", "blue"] }) 8 rfl
      (by rw [hfit]; norm_num)
  have hbg := getBackgroundColor_of_label 115 (js "mithy")
      (extendOptions namedavatar.options
        { Options.empty with backgroundColors := some ["red", "green", "blue"] })
      ["red", "green", "blue"] 0 rfl rfl
  refine ⟨?_, by decide, by decide⟩
  rw [getSVG_of_getName _ _ _ _ _ _ hn, createSVG_of_label 115 (js "mithy") _ 0 false _ _ _ hbg hfs]
  rfl

/-- C1 (amended): without `backgroundColor` in the merged options, the background
colour of the avatar of `getSVG` is chosen from the label as returned by `getName`,
before the fitter runs: when that label is non-empty with first character code
`c`, the colour is `backgroundColors[c mod backgroundColors.length]`. -/
theorem getSVG_colour_from_getName (global tempOptions : Options) (fullName : JSValue)
    (c : Nat) (cs : JSString) (palette : List String) (random : ℚ) (msBrowser : Bool)
    (hb : (extendOptions global tempOptions).backgroundColor = none)
    (hp : (extendOptions global tempOptions).backgroundColors = some palette)
    (hn : getName fullName (extendOptions global tempOptions) = Except.ok (some (c :: cs))) :
    ∃ svg, namedavatar.getSVG global fullName tempOptions random msBrowser = Except.ok svg ∧
      svg.rectFill = palette[c % palette.length]? := by
  obtain ⟨fs, l, hfs⟩ := getFontSize_label c cs (extendOptions global tempOptions)
  have hbg := getBackgroundColor_of_label c cs _ palette random hb hp
  rw [getSVG_of_getName _ _ _ _ _ _ hn,
    createSVG_of_label c cs _ random msBrowser _ fs l hbg hfs]
  exact ⟨_, rfl, rfl⟩

/-- Instance of C1 (amended) at the full name `smithy` and a palette of three colours:
the colour is that of slot `115 % 3 = 1`. -/
theorem getSVG_colour_from_getName_witness :
    ∃ svg, namedavatar.getSVG namedavatar.options (JSValue.string (js "smithy"))
        { Options.empty with backgroundColors := some ["red", "green", "blue"] } 0 false =
          Except.ok svg ∧
      svg.rectFill = ["red", "green", "blue"][115 % 3]? :=
  getSVG_colour_from_getName namedavatar.options
    { Options.empty with backgroundColors := some ["red", "green", "blue"] }
    (JSValue.string (js "smithy")) 115 (js "mithy") ["red", "green", "blue"] 0 false
    rfl rfl (by decide)

/-- The non-empty full name `John ` has the empty last token as its label, so the
colour of its avatar is the random pick: two values of `Math.random()` give two
avatars (C2 as stated excludes this for every non-empty full name). -/
theorem getSVG_random_on_trailing_space :
    getName (JSValue.string (js "John ")) namedavatar.options = Except.ok (some []) ∧
    namedavatar.getSVG namedavatar.options (JSValue.string (js "John ")) Options.empty
        0 false =
      Except.ok { width := none, height := none, rectFill := some "#1D8FE1", text := none } ∧
    namedavatar.getSVG namedavatar.options (JSValue.string (js "John ")) Options.empty
        (1 / 2) false =
      Except.ok { width := none, height := none, rectFill := some "#0BA194", text := none } := by
  have hn : getName (JSValue.string (js "John "))
      (extendOptions namedavatar.options Options.empty) = Except.ok (some []) := by decide
  have h0 : Math.floor ((0 : ℚ) * (4 : ℕ)) = 0 := by
    unfold Math.floor; norm_num
  have h2 : Math.floor ((1 / 2 : ℚ) * (4 : ℕ)) = 2 := by
    unfold Math.floor; norm_num
  have hbg0 := getBackgroundColor_of_no_label (some [])
      (extendOptions namedavatar.options Options.empty)
      ["#1D8FE1", "#E8A010", "#0BA194", "#E8541E"] 0 (Or.inr rfl) rfl rfl
  have hbg2 := getBackgroundColor_of_no_label (some [])
      (extendOptions namedavatar.options Options.empty)
      ["#1D8FE1", "#E8A010", "#0BA194", "#E8541E"] (1 / 2) (Or.inr rfl) rfl rfl
  refine ⟨by decide, ?_, ?_⟩
  · rw [getSVG_of_getName _ _ _ _ _ _ hn,
      createSVG_of_no_label _ _ _ _ _ (Or.inr rfl) hbg0]
    simp only [List.length_cons, List.length_nil, h0]
    rfl
  · rw [getSVG_of_getName _ _ _ _ _ _ hn,
      createSVG_of_no_label _ _ _ _ _ (Or.inr rfl) hbg2]
    simp only [List.length_cons, List.length_nil, h2]
    rfl

/-- C2 (amended): whenever the label returned by `getName` is non-empty, the avatar
of `getSVG` is the same for every value of `Math.random()`; the random palette pick
is taken when that label is empty or absent, which includes non-empty full names
such as `John ` under `lastName`. -/
theorem getSVG_random_independent (global tempOptions : Options) (fullName : JSValue)
    (msBrowser : Bool) :
    (∀ (c : Nat) (cs : JSString) (r1 r2 : ℚ),
      getName fullName (extendOptions global tempOptions) = Except.ok (some (c :: cs)) →
      namedavatar.getSVG global fullName tempOptions r1 msBrowser =
        namedavatar.getSVG global fullName tempOptions r2 msBrowser) ∧
    (∀ (name : Option JSString) (palette : List String) (r : ℚ),
      getName fullName (extendOptions global tempOptions) = Except.ok name →
      name = none ∨ name = some [] →
      (extendOptions global tempOptions).backgroundColor = none →
      (extendOptions global tempOptions).backgroundColors = some palette →
      namedavatar.getSVG global fullName tempOptions r msBrowser =
        Except.ok
          { width := (extendOptions global tempOptions).width,
            height := svgHeight (extendOptions global tempOptions),
            rectFill := arrayGet palette (Math.floor (r * palette.length)),
            text := none }) := by
  constructor
  · intro c cs r1 r2 hn
    rw [getSVG_of_getName _ _ _ _ _ _ hn, getSVG_of_getName _ _ _ _ _ _ hn]
    simp only [AvatarImage.createSVG, AvatarImage.getBackgroundColor]
  · intro name palette r hn hname hb hp
    rw [getSVG_of_getName _ _ _ _ _ _ hn]
    exact createSVG_of_no_label name _ r msBrowser _ hname
      (getBackgroundColor_of_no_label name _ palette r hname hb hp)

/-- Instance of C2 (amended) at the full name `John Smith` with the default options. -/
theorem getSVG_random_independent_witness :
    namedavatar.getSVG namedavatar.options (JSValue.string (js "John Smith"))
        Options.empty 0 false =
      namedavatar.getSVG namedavatar.options (JSValue.string (js "John Smith"))
        Options.empty (1 / 2) false :=
  (getSVG_random_independent namedavatar.options Options.empty
    (JSValue.string (js "John Smith")) false).1 83 (js "mith") 0 (1 / 2) (by decide)

/-- The full name `42`, a number, is not a string and is not falsy: `getName` throws a
`TypeError` at `fullName.charCodeAt`, and so does `getSVG` (C9 as stated requires
an avatar without text for every input that is not a string). -/
theorem getSVG_number_throws :
    getName (JSValue.number 42) namedavatar.options = Except.error Fault.typeError ∧
    namedavatar.getSVG namedavatar.options (JSValue.number 42) Options.empty 0 false =
      Except.error Fault.typeError := by
  have hn : getName (JSValue.number 42) (extendOptions namedavatar.options Options.empty) =
      Except.error Fault.typeError := by decide
  refine ⟨by decide, ?_⟩
  simp only [namedavatar.getSVG, extendOptions_empty, hn]

/-- C9 (amended): for every falsy full name (the empty string, `undefined`, `null`,
`false`, `0`, `NaN`) and every merged options value that has a `backgroundColor` or
a non-empty palette, `getName` produces the absent label and `getSVG` completes
without a fault, with an avatar that has a background colour and no text element. -/
theorem getSVG_falsy_name (global tempOptions : Options) (fullName : JSValue)
    (random : ℚ) (msBrowser : Bool) (hf : fullName.truthy = false)
    (hinv : (∃ color, (extendOptions global tempOptions).backgroundColor = some color) ∨
      ∃ palette, (extendOptions global tempOptions).backgroundColors = some palette ∧
        palette ≠ [])
    (h0 : 0 ≤ random) (h1 : random < 1) :
    getName fullName (extendOptions global tempOptions) = Except.ok none ∧
    ∃ color, namedavatar.getSVG global fullName tempOptions random msBrowser =
      Except.ok
        { width := (extendOptions global tempOptions).width,
          height := svgHeight (extendOptions global tempOptions),
          rectFill := some color, text := none } := by
  have hn : getName fullName (extendOptions global tempOptions) = Except.ok none := by
    simp [getName, hf]
  refine ⟨hn, ?_⟩
  rw [getSVG_of_getName _ _ _ _ _ _ hn]
  cases hbc : (extendOptions global tempOptions).backgroundColor with
  | some color =>
    refine ⟨color, createSVG_of_no_label none _ random msBrowser _ (Or.inl rfl) ?_⟩
    simp only [AvatarImage.getBackgroundColor, hbc]
  | none =>
    rcases hinv with ⟨color, hc⟩ | ⟨palette, hp, hne⟩
    · rw [hbc] at hc; exact absurd hc (by simp)
    · have hlt := random_index_lt random palette.length h0 h1 (List.length_pos.mpr hne)
      refine ⟨palette.get ⟨_, hlt.2⟩,
        createSVG_of_no_label none _ random msBrowser _ (Or.inl rfl) ?_⟩
      rw [getBackgroundColor_of_no_label none _ palette random (Or.inl rfl) hbc hp,
        arrayGet_of_lt palette _ hlt.1 hlt.2]

/-- Instance of C9 (amended) at the empty full name with the default options. -/
theorem getSVG_falsy_name_witness :
    getName (JSValue.string []) (extendOptions namedavatar.options Options.empty) =
      Except.ok none ∧
    ∃ color, namedavatar.getSVG namedavatar.options (JSValue.string []) Options.empty
        (1 / 2) false =
      Except.ok { width := none, height := none, rectFill := some color, text := none } :=
  getSVG_falsy_name namedavatar.options Options.empty (JSValue.string []) (1 / 2) false rfl
    (Or.inr ⟨["#1D8FE1", "#E8A010", "#0BA194", "#E8541E"], rfl, by decide⟩)
    (by norm_num) (by norm_num)

theorem fittedSize_smith_32 :
    fittedSize 83 (js "mith")
      (extendOptions namedavatar.options { Options.empty with width := some 32 }) = 9 := by
  have hab : (js "mith").length = 4 := by decide
  simp only [fittedSize, Math.round, AvatarImage.availableWidth, namedavatar.options,
    extendOptions, Options.empty, Option.orElse, List.length_cons, hab]
  norm_num

/-- C10: with the default options and width 32, `getSVG` for the full name
`John Smith` yields the label `Smith`, the font size 9 = round(32 / (5 * 0.75)) and
the background colour `palette[83 mod 4] = palette[3] = #E8541E`. -/
theorem getSVG_john_smith (random : ℚ) (msBrowser : Bool) :
    namedavatar.getSVG namedavatar.options (JSValue.string (js "John Smith"))
        { Options.empty with width := some 32 } random msBrowser =
      Except.ok
        { width := some 32, height := some 32, rectFill := some "#E8541E",
          text := some { fill := some "#FFF", fontSize := some 9,
                         fontFamily := some "Verdana, Geneva, sans-serif",
                         legacyBaseline := msBrowser, textContent := some (js "Smith") } } ∧
    Math.round ((32 : ℚ) / (5 * (3 / 4))) = 9 ∧ (js "Smith")[0]? = some 83 ∧ 83 % 4 = 3 ∧
    ["#1D8FE1", "#E8A010", "#0BA194", "#E8541E"][3]? = some "#E8541E" := by
  have hn : getName (JSValue.string (js "John Smith"))
      (extendOptions namedavatar.options { Options.empty with width := some 32 }) =
      Except.ok (some (83 :: js "mith")) := by decide
  have hfs := getFontSize_of_within 83 (js "mith")
      (extendOptions namedavatar.options { Options.empty with width := some 32 }) 8 16
      rfl rfl (by rw [fittedSize_smith_32]; norm_num) (by rw [fittedSize_smith_32]; norm_num)
  have hbg := getBackgroundColor_of_label 83 (js "mith")
      (extendOptions namedavatar.options { Options.empty with width := some 32 })
      ["#1D8FE1", "#E8A010", "#0BA194", "#E8541E"] random rfl rfl
  refine ⟨?_, ?_, by decide, by decide, by decide⟩
  · rw [getSVG_of_getName _ _ _ _ _ _ hn,
      createSVG_of_label 83 (js "mith") _ random msBrowser _ _ _ hbg hfs, fittedSize_smith_32]
    have h5 : js "Smith" = 83 :: js "mith" := by decide
    rw [h5]
    simp [svgHeight, extendOptions, Options.empty, namedavatar.options, Option.orElse]
  · unfold Math.round; norm_num

/-! ## Reachability of the division by zero -/

theorem head?_split (sep : Nat) (s : JSString) :
    ∃ t, (split sep s).head? = some t := by
  cases h : split sep s with
  | nil => exact absurd h (split_ne_nil sep s)
  | cons t ts => exact ⟨t, rfl⟩

/-- On the Latin branch `getName` picks a name and applies the overflow guard. -/
theorem getName_latin (c : Nat) (cs : JSString) (o : Options) (hc : c < 256) :
    ∃ name, getName (JSValue.string (c :: cs)) o =
      Except.ok (some (if name.length > 6 then toUpperCase (charAt name 0) else name)) := by
  have key : ∀ picked : Option JSString, (∃ t, picked = some t) →
      ∃ name, (match picked with
        | none => (Except.error Fault.typeError : Except Fault (Option JSString))
        | some name =>
          if name.length > 6 then Except.ok (some (toUpperCase (charAt name 0)))
          else Except.ok (some name)) =
        Except.ok (some (if name.length > 6 then toUpperCase (charAt name 0) else name)) := by
    rintro _ ⟨t, rfl⟩
    refine ⟨t, ?_⟩
    by_cases h : t.length > 6 <;> simp [h]
  simp only [getName, JSValue.truthy, hc]
  apply key
  cases o.nameType with
  | none => exact ⟨_, rfl⟩
  | some nt =>
    cases nt with
    | firstName => exact head?_split 32 (c :: cs)
    | lastName => exact getLast?_split 32 (c :: cs)
    | initials => exact ⟨_, rfl⟩
    | other => exact ⟨_, rfl⟩

theorem getName_wide_ok (c : Nat) (cs : JSString) (o : Options) (hc : ¬ c < 256) :
    ∃ name, getName (JSValue.string (c :: cs)) o = Except.ok (some name) := by
  simp only [getName, JSValue.truthy, hc]
  cases o.nameType with
  | none => exact ⟨_, rfl⟩
  | some nt => cases nt <;> exact ⟨_, rfl⟩

theorem getName_ne_nonFinite (fullName : JSValue) (o : Options) :
    getName fullName o ≠ Except.error Fault.nonFinite := by
  cases fullName with
  | string s =>
    cases s with
    | nil => simp [getName, JSValue.truthy]
    | cons c cs =>
      by_cases hc : c < 256
      · obtain ⟨name, h⟩ := getName_latin c cs o hc
        rw [h]; simp
      · obtain ⟨name, h⟩ := getName_wide_ok c cs o hc
        rw [h]; simp
  | boolean b => cases b <;> simp [getName, JSValue.truthy]
  | number q => by_cases hq : q = 0 <;> simp [getName, JSValue.truthy, hq]
  | undefined => simp [getName, JSValue.truthy]
  | null => simp [getName, JSValue.truthy]
  | nan => simp [getName, JSValue.truthy]

theorem getFontSize_nonFinite_iff (self : AvatarImage) :
    self.getFontSize = Except.error Fault.nonFinite ↔ self.name = some [] := by
  obtain ⟨name, o⟩ := self
  cases name with
  | none => simp [AvatarImage.getFontSize]
  | some l =>
    cases l with
    | nil => simp [AvatarImage.getFontSize]
    | cons c cs =>
      obtain ⟨fs, l, h⟩ := getFontSize_label c cs o
      simp [h]

theorem getBackgroundColor_ne_nonFinite (self : AvatarImage) (random : ℚ) :
    self.getBackgroundColor random ≠ Except.error Fault.nonFinite := by
  unfold AvatarImage.getBackgroundColor
  split
  · simp
  · split
    · simp
    · split <;> simp

theorem createSVG_ne_nonFinite (self : AvatarImage) (random : ℚ) (msBrowser : Bool) :
    self.createSVG random msBrowser ≠ Except.error Fault.nonFinite := by
  obtain ⟨name, o⟩ := self
  cases hbg : AvatarImage.getBackgroundColor ⟨name, o⟩ random with
  | error e =>
    have he : e ≠ Fault.nonFinite := by
      intro h
      rw [h] at hbg
      exact getBackgroundColor_ne_nonFinite _ _ hbg
    simp only [AvatarImage.createSVG, hbg]
    intro h
    exact he (Except.error.inj h)
  | ok fill =>
    cases name with
    | none => rw [createSVG_of_no_label none o random msBrowser fill (Or.inl rfl) hbg]; simp
    | some l =>
      cases l with
      | nil => rw [createSVG_of_no_label (some []) o random msBrowser fill (Or.inr rfl) hbg]; simp
      | cons c cs =>
        obtain ⟨fs, l, h⟩ := getFontSize_label c cs o
        rw [createSVG_of_label c cs o random msBrowser fill fs l hbg h]
        simp

theorem textWidth_pos (c : Nat) (cs : JSString) :
    (0 : ℚ) < ((c :: cs).length : ℚ) * (if c < 256 then 3 / 4 else 3 / 2) := by
  have hlen : (0 : ℚ) < ((c :: cs).length : ℚ) := by
    simp only [List.length_cons]; positivity
  split_ifs <;> positivity

/-- C11: `createSVG` calls `getFontSize` only on a label that is a string of length
greater than 0.  The division by zero of `getFontSize`, which happens exactly on the
empty label, is reached neither from `createSVG` nor from `getSVG`; on an absent or
empty label `createSVG` builds no text node; and on every non-empty label the
divisor `textWidth = length(label) * weight` is strictly positive. -/
theorem getSVG_no_division_by_zero (global tempOptions : Options) (fullName : JSValue)
    (random : ℚ) (msBrowser : Bool) :
    namedavatar.getSVG global fullName tempOptions random msBrowser ≠
      Except.error Fault.nonFinite ∧
    (∀ self : AvatarImage, self.createSVG random msBrowser ≠ Except.error Fault.nonFinite) ∧
    (∀ self : AvatarImage,
      self.getFontSize = Except.error Fault.nonFinite ↔ self.name = some []) ∧
    (∀ (self : AvatarImage) (svg : SVG), self.name = none ∨ self.name = some [] →
      self.createSVG random msBrowser = Except.ok svg → svg.text = none) ∧
    (∀ (c : Nat) (cs : JSString),
      (0 : ℚ) < ((c :: cs).length : ℚ) * (if c < 256 then 3 / 4 else 3 / 2)) := by
  refine ⟨?_, fun self => createSVG_ne_nonFinite self random msBrowser,
    getFontSize_nonFinite_iff, ?_, textWidth_pos⟩
  · cases hn : getName fullName
        (extendOptions (extendOptions Options.empty global) tempOptions) with
    | error e =>
      simp only [namedavatar.getSVG, hn]
      intro h
      rw [Except.error.inj h] at hn
      exact getName_ne_nonFinite _ _ hn
    | ok name =>
      simp only [namedavatar.getSVG, hn]
      exact createSVG_ne_nonFinite _ random msBrowser
  · intro self svg hname h
    obtain ⟨name, o⟩ := self
    cases hbg : AvatarImage.getBackgroundColor ⟨name, o⟩ random with
    | error e =>
      simp only [AvatarImage.createSVG, hbg] at h
      exact absurd h (by simp)
    | ok fill =>
      rw [createSVG_of_no_label name o random msBrowser fill hname hbg] at h
      rw [← Except.ok.inj h]

/-! ## Bounds of the returned font size -/

/-- C12: for every non-empty label and bounds with `minFontSize ≤ maxFontSize`, the font
size returned by `getFontSize` lies in `[minFontSize, maxFontSize]` (for every
available width, the positive ones included); when the rounded quotient exceeds
`maxFontSize` the result is exactly `maxFontSize` and the label is unchanged. -/
theorem getFontSize_bounds (c : Nat) (cs : JSString) (o : Options) (mn mx : ℚ)
    (hmin : o.minFontSize = some mn) (hmax : o.maxFontSize = some mx) (hle : mn ≤ mx) :
    (∃ fs l, AvatarImage.getFontSize ⟨some (c :: cs), o⟩ = Except.ok (some fs, ⟨some l, o⟩) ∧
      mn ≤ fs ∧ fs ≤ mx) ∧
    (mx < (fittedSize c cs o : ℚ) →
      AvatarImage.getFontSize ⟨some (c :: cs), o⟩ =
        Except.ok (some mx, ⟨some (c :: cs), o⟩)) := by
  constructor
  · rcases lt_or_le (fittedSize c cs o : ℚ) mn with h | h
    · refine ⟨mx, toUpperCase [c], ?_, hle, le_refl mx⟩
      rw [getFontSize_of_lt c cs o mn hmin h, hmax]
    · rcases lt_or_le mx (fittedSize c cs o : ℚ) with h2 | h2
      · exact ⟨mx, c :: cs, getFontSize_of_gt c cs o mn mx hmin hmax h h2, hle, le_refl mx⟩
      · exact ⟨_, c :: cs, getFontSize_of_within c cs o mn mx hmin hmax h h2, h, h2⟩
  · intro h2
    exact getFontSize_of_gt c cs o mn mx hmin hmax (le_trans hle (le_of_lt h2)) h2

theorem fittedSize_a : fittedSize 65 [] namedavatar.options = 43 := by
  simp only [fittedSize, Math.round, AvatarImage.availableWidth, namedavatar.options,
    List.length_cons, List.length_nil]
  norm_num

/-- Instance of C12 at the one-character label `A` with the default options: the rounded
quotient 43 exceeds 16, the result is 16 and the label is unchanged. -/
theorem getFontSize_bounds_witness :
    AvatarImage.getFontSize ⟨some [65], namedavatar.options⟩ =
      Except.ok (some 16, ⟨some [65], namedavatar.options⟩) :=
  (getFontSize_bounds 65 [] namedavatar.options 8 16 rfl rfl (by norm_num)).2
    (by rw [fittedSize_a]; norm_num)

/-! ## Explicit background colour -/

/-- C13: when the options contain a `backgroundColor`, `getBackgroundColor` returns
exactly that colour, for every label (absent, empty or not), every palette (absent
or empty included) and every value of `Math.random()`. -/
theorem getBackgroundColor_explicit (name : Option JSString) (o : Options) (random : ℚ)
    (color : String) (hb : o.backgroundColor = some color) :
    AvatarImage.getBackgroundColor ⟨name, o⟩ random = Except.ok (some color) := by
  simp only [AvatarImage.getBackgroundColor, hb]

/-- Instance of C13 at the empty label and the empty palette. -/
theorem getBackgroundColor_explicit_witness :
    AvatarImage.getBackgroundColor
        ⟨some [], { Options.empty with backgroundColors := some [],
                                       backgroundColor := some "#000" }⟩ (1 / 2) =
      Except.ok (some "#000") :=
  getBackgroundColor_explicit (some [])
    { Options.empty with backgroundColors := some [], backgroundColor := some "#000" }
    (1 / 2) "#000" rfl

/-! ## Length of the picked name -/

theorem charAt_zero_length_le (s : JSString) : (toUpperCase (charAt s 0)).length ≤ 3 := by
  cases s with
  | nil => simp [charAt, toUpperCase]
  | cons c cs =>
    have h : charAt (c :: cs) 0 = [c] := by simp [charAt]
    rw [h, toUpperCase_singleton]
    exact (upperUnit_length c).2

/-- C16: for every non-empty full name whose first character code is below 256 and
every value of nameType (absent or unrecognised included), `getName` returns a label
of at most 6 characters. -/
theorem getName_latin_length (c : Nat) (cs : JSString) (o : Options) (hc : c < 256) :
    ∃ label, getName (JSValue.string (c :: cs)) o = Except.ok (some label) ∧
      label.length ≤ 6 := by
  obtain ⟨name, h⟩ := getName_latin c cs o hc
  refine ⟨_, h, ?_⟩
  by_cases h6 : name.length > 6
  · rw [if_pos h6]
    exact le_trans (charAt_zero_length_le name) (by decide)
  · rw [if_neg h6]
    exact Nat.le_of_not_lt h6

/-- Instance of C16 at the full name `Bartholomew` with an unrecognised nameType. -/
theorem getName_latin_length_witness :
    ∃ label, getName (JSValue.string (js "Bartholomew"))
        { namedavatar.options with nameType := some NameType.other } =
          Except.ok (some label) ∧
      label.length ≤ 6 :=
  getName_latin_length 66 (js "artholomew")
    { namedavatar.options with nameType := some NameType.other } (by decide)

/-! ## Merging of the options -/

theorem keyOverride_orElse {α : Type} (base patch : Option α) :
    KeyOverride base patch (patch.orElse fun _ => base) := by
  cases patch with
  | none => exact ⟨fun v h => absurd h (by simp), fun _ => rfl⟩
  | some v => exact ⟨fun w h => by rw [← h]; rfl, fun h => absurd h (by simp)⟩

theorem shallowOverride_extendOptions (target options : Options) :
    ShallowOverride target options (extendOptions target options) :=
  ⟨keyOverride_orElse _ _, keyOverride_orElse _ _, keyOverride_orElse _ _,
    keyOverride_orElse _ _, keyOverride_orElse _ _, keyOverride_orElse _ _,
    keyOverride_orElse _ _, keyOverride_orElse _ _, keyOverride_orElse _ _⟩

/-- C14: `getSVG` works on the merged options `extendOptions (extendOptions {} G) T`,
in which every key present in `T` has the value of `T` and every other key has the
value of `G`; the global options after a call of `getSVG` are `G`, unchanged; and
`config` is the operation that replaces `G`, by its shallow override. -/
theorem getSVG_merged_options (G T : Options) (fullName : JSValue) (random : ℚ)
    (msBrowser : Bool) :
    ShallowOverride G T (extendOptions (extendOptions Options.empty G) T) ∧
    namedavatar.getSVG G fullName T random msBrowser =
      (match getName fullName (extendOptions (extendOptions Options.empty G) T) with
        | Except.error e => Except.error e
        | Except.ok name =>
          AvatarImage.createSVG
            ⟨name, extendOptions (extendOptions Options.empty G) T⟩ random msBrowser) ∧
    (namedavatar.getSVGStore G fullName T random msBrowser).2 = G ∧
    (namedavatar.getSVGStore G fullName T random msBrowser).1 =
      namedavatar.getSVG G fullName T random msBrowser ∧
    ShallowOverride G T (namedavatar.config G (some T)) ∧
    namedavatar.config G none = G := by
  refine ⟨?_, rfl, rfl, rfl, shallowOverride_extendOptions G T, rfl⟩
  rw [extendOptions_empty]
  exact shallowOverride_extendOptions G T

/-- Instance of C14 at the default options overridden by a width: the merged options
have the width 64 and keep the default bounds, and `config` changes the global options
where `getSVG` does not. -/
theorem getSVG_merged_options_witness :
    (extendOptions (extendOptions Options.empty namedavatar.options)
        { Options.empty with width := some 64 }).width = some 64 ∧
    (extendOptions (extendOptions Options.empty namedavatar.options)
        { Options.empty with width := some 64 }).minFontSize = some 8 ∧
    (namedavatar.getSVGStore namedavatar.options (JSValue.string (js "John Smith"))
        { Options.empty with width := some 64 } 0 false).2 = namedavatar.options ∧
    (namedavatar.config namedavatar.options
        (some { Options.empty with width := some 64 })).width = some 64 :=
  have h := getSVG_merged_options namedavatar.options { Options.empty with width := some 64 }
    (JSValue.string (js "John Smith")) 0 false
  ⟨h.1.2.2.2.2.2.2.2.1.1 64 rfl, h.1.2.2.2.2.1.2 rfl, h.2.2.1,
    h.2.2.2.2.1.2.2.2.2.2.2.2.1.1 64 rfl⟩

/-! ## Dimensions -/

theorem getBackgroundColor_ok (name : Option JSString) (o : Options) (random : ℚ)
    (h : (∃ color, o.backgroundColor = some color) ∨
      (∃ palette, o.backgroundColors = some palette)) :
    ∃ fill, AvatarImage.getBackgroundColor ⟨name, o⟩ random = Except.ok fill := by
  cases hb : o.backgroundColor with
  | some color => exact ⟨some color, by simp only [AvatarImage.getBackgroundColor, hb]⟩
  | none =>
    rcases h with ⟨color, hc⟩ | ⟨palette, hp⟩
    · rw [hb] at hc; exact absurd hc (by simp)
    · cases name with
      | none =>
        exact ⟨_, getBackgroundColor_of_no_label none o palette random (Or.inl rfl) hb hp⟩
      | some l =>
        cases l with
        | nil =>
          exact ⟨_, getBackgroundColor_of_no_label (some []) o palette random (Or.inr rfl)
            hb hp⟩
        | cons c cs => exact ⟨_, getBackgroundColor_of_label c cs o palette random hb hp⟩

/-- C15: every node that `createSVG` returns has the width `options.width` and the
height `options.height`, or the width when there is no `options.height`, if the
options have a width; it has neither a width nor a height if they have none, whatever
`options.height` is.  `createSVG` returns a node whenever the options have a
`backgroundColor` or a palette. -/
theorem createSVG_dimensions (self : AvatarImage) (random : ℚ) (msBrowser : Bool) :
    (∀ svg, self.createSVG random msBrowser = Except.ok svg →
      (∀ w, self.options.width = some w →
        svg.width = some w ∧
        (∀ h, self.options.height = some h → svg.height = some h) ∧
        (self.options.height = none → svg.height = some w)) ∧
      (self.options.width = none → svg.width = none ∧ svg.height = none)) ∧
    ((∃ color, self.options.backgroundColor = some color) ∨
        (∃ palette, self.options.backgroundColors = some palette) →
      ∃ svg, self.createSVG random msBrowser = Except.ok svg) := by
  obtain ⟨name, o⟩ := self
  have hshape : ∀ fill, AvatarImage.getBackgroundColor ⟨name, o⟩ random = Except.ok fill →
      ∃ text, AvatarImage.createSVG ⟨name, o⟩ random msBrowser =
        Except.ok { width := o.width, height := svgHeight o, rectFill := fill,
                    text := text } := by
    intro fill hbg
    cases name with
    | none => exact ⟨_, createSVG_of_no_label none o random msBrowser fill (Or.inl rfl) hbg⟩
    | some l =>
      cases l with
      | nil => exact ⟨_, createSVG_of_no_label (some []) o random msBrowser fill (Or.inr rfl) hbg⟩
      | cons c cs =>
        obtain ⟨fs, l, h⟩ := getFontSize_label c cs o
        exact ⟨_, createSVG_of_label c cs o random msBrowser fill fs l hbg h⟩
  constructor
  · intro svg hsvg
    cases hbg : AvatarImage.getBackgroundColor ⟨name, o⟩ random with
    | error e =>
      simp only [AvatarImage.createSVG, hbg] at hsvg
      exact absurd hsvg (by simp)
    | ok fill =>
      obtain ⟨text, h⟩ := hshape fill hbg
      rw [h] at hsvg
      rw [← Except.ok.inj hsvg]
      refine ⟨fun w (hw : o.width = some w) =>
          ⟨hw, fun h (hh : o.height = some h) => ?_, fun (hh : o.height = none) => ?_⟩,
        fun (hw : o.width = none) => ⟨hw, ?_⟩⟩
      · simp [svgHeight, hw, hh]
      · simp [svgHeight, hw, hh]
      · simp [svgHeight, hw]
  · intro hinv
    obtain ⟨fill, hbg⟩ := getBackgroundColor_ok name o random hinv
    obtain ⟨text, h⟩ := hshape fill hbg
    exact ⟨_, h⟩

/-- Instance of C15 at options with a height and no width: the node has neither. -/
theorem createSVG_dimensions_witness :
    ∃ svg, AvatarImage.createSVG
        ⟨none, { namedavatar.options with height := some 48 }⟩ 0 false = Except.ok svg ∧
      svg.width = none ∧ svg.height = none :=
  have h := createSVG_dimensions ⟨none, { namedavatar.options with height := some 48 }⟩ 0 false
  (h.2 (Or.inr ⟨_, rfl⟩)).elim fun svg hsvg => ⟨svg, hsvg, (h.1 svg hsvg).2 rfl⟩

/-! ## Labels left by the fitter at the default bounds -/

theorem availableWidth_default (name : Option JSString) (o : Options)
    (hw : o.width = none ∨ o.width = some 32) :
    (AvatarImage.mk name o).availableWidth = 32 := by
  rcases hw with h | h <;> simp [AvatarImage.availableWidth, h]

theorem round_lt_eight (n w : ℚ) (hw : 0 < w) (hn : 32 < (15 / 2) * (n * w)) (hpos : 0 < n) :
    ((Math.round (32 / (n * w)) : ℤ) : ℚ) < 8 := by
  have hden : 0 < n * w := mul_pos hpos hw
  have h1 : 32 / (n * w) < 15 / 2 := by
    rw [div_lt_iff₀ hden]; exact hn
  have h2 : Math.round (32 / (n * w)) < 8 := by
    unfold Math.round
    rw [Int.floor_lt]
    push_cast
    linarith
  exact_mod_cast h2

theorem eight_le_round (n w : ℚ) (hw : 0 < w) (hn : (15 / 2) * (n * w) ≤ 32) (hpos : 0 < n) :
    (8 : ℚ) ≤ ((Math.round (32 / (n * w)) : ℤ) : ℚ) := by
  have hden : 0 < n * w := mul_pos hpos hw
  have h1 : 15 / 2 ≤ 32 / (n * w) := by
    rw [le_div_iff₀ hden]; exact hn
  have h2 : 8 ≤ Math.round (32 / (n * w)) := by
    unfold Math.round
    rw [Int.le_floor]
    push_cast
    linarith
  exact_mod_cast h2

theorem getFontSize_of_ge (c : Nat) (cs : JSString) (o : Options) (mn : ℚ)
    (hmin : o.minFontSize = some mn) (h : mn ≤ (fittedSize c cs o : ℚ)) :
    ∃ fs, AvatarImage.getFontSize ⟨some (c :: cs), o⟩ =
      Except.ok (fs, ⟨some (c :: cs), o⟩) := by
  unfold fittedSize at h
  have hn := not_lt.mpr h
  simp only [AvatarImage.getFontSize, hmin, jsLt, hn, decide_False, Bool.false_eq_true,
    if_false]
  split_ifs <;> exact ⟨_, rfl⟩

theorem upperUnit_length_latin_le (c : Nat) (hc : c < 256) : (upperUnit c).length ≤ 2 := by
  by_cases h : c = 223
  · subst h; decide
  · rw [upperUnit_length_latin c hc h]; decide

theorem fittedSize_default (c : Nat) (cs : JSString) (o : Options)
    (hw : o.width = none ∨ o.width = some 32) :
    fittedSize c cs o =
      Math.round (32 / (((c :: cs).length : ℚ) * (if c < 256 then 3 / 4 else 3 / 2))) := by
  unfold fittedSize
  rw [availableWidth_default _ o hw]

/-- The three-character label starting with code unit 912 (Greek iota with dialytika
and tonos) does not fit at the default bounds and is replaced by the upper-casing
of its first character, which has three code units (C17 as stated allows at most 2). -/
theorem getFontSize_default_wide_three :
    fittedSize 912 [945, 946] namedavatar.options = 7 ∧
    AvatarImage.getFontSize ⟨some [912, 945, 946], namedavatar.options⟩ =
      Except.ok (some 16, ⟨some [921, 776, 769], namedavatar.options⟩) ∧
    ([921, 776, 769] : JSString).length = 3 := by
  have hr : fittedSize 912 [945, 946] namedavatar.options = 7 := by
    simp only [fittedSize, Math.round, AvatarImage.availableWidth, namedavatar.options,
      List.length_cons, List.length_nil]
    norm_num
  have hup : toUpperCase [912] = [921, 776, 769] := by decide
  refine ⟨hr, ?_, rfl⟩
  rw [← hup]
  exact getFontSize_of_lt 912 [945, 946] namedavatar.options 8 rfl (by rw [hr]; norm_num)

/-- C17 (amended): with the default bounds (8 and 16) and the available width 32 (width
unset or 32), the label left by `getFontSize` has at most 5 characters when the first
character code of the label passed is below 256 and at most 3 otherwise (at most 2
when the upper-casing of the first character has at most 2): every label of more than
5 characters, or of more than 2 with a first character code of 256 or above, is
replaced by its upper-cased first character, with font size 16. -/
theorem getFontSize_default_length (c : Nat) (cs : JSString) (o : Options)
    (hmin : o.minFontSize = some 8) (hmax : o.maxFontSize = some 16)
    (hw : o.width = none ∨ o.width = some 32) :
    ∃ fs l, AvatarImage.getFontSize ⟨some (c :: cs), o⟩ = Except.ok (fs, ⟨some l, o⟩) ∧
      (c < 256 → l.length ≤ 5) ∧
      (256 ≤ c → l.length ≤ 3) ∧
      (256 ≤ c → (toUpperCase [c]).length ≤ 2 → l.length ≤ 2) ∧
      (c < 256 → 5 < (c :: cs).length → l = toUpperCase [c] ∧ fs = some 16) ∧
      (256 ≤ c → 2 < (c :: cs).length → l = toUpperCase [c] ∧ fs = some 16) := by
  have hfit := fittedSize_default c cs o hw
  have hposn : (0 : ℚ) < ((c :: cs).length : ℚ) := by
    simp only [List.length_cons]; positivity
  by_cases hc : c < 256
  · have hc2 : ¬ 256 ≤ c := Nat.not_le.mpr hc
    rw [if_pos hc] at hfit
    by_cases hlen : 5 < (c :: cs).length
    · have hcast : (6 : ℚ) ≤ ((c :: cs).length : ℚ) := by exact_mod_cast hlen
      have hlt : (fittedSize c cs o : ℚ) < 8 := by
        rw [hfit]
        exact round_lt_eight _ _ (by norm_num) (by linarith) hposn
      refine ⟨some 16, toUpperCase [c], ?_, ?_, ?_, ?_, ?_, ?_⟩
      · rw [getFontSize_of_lt c cs o 8 hmin hlt, hmax]
      · intro _
        rw [toUpperCase_singleton]
        exact le_trans (upperUnit_length_latin_le c hc) (by decide)
      · intro h; exact absurd h hc2
      · intro h; exact absurd h hc2
      · intro _ _; exact ⟨rfl, rfl⟩
      · intro h; exact absurd h hc2
    · have hle : (c :: cs).length ≤ 5 := Nat.le_of_not_lt hlen
      have hcast : ((c :: cs).length : ℚ) ≤ 5 := by exact_mod_cast hle
      have hge : (8 : ℚ) ≤ (fittedSize c cs o : ℚ) := by
        rw [hfit]
        exact eight_le_round _ _ (by norm_num) (by linarith) hposn
      obtain ⟨fs, hfs⟩ := getFontSize_of_ge c cs o 8 hmin hge
      refine ⟨fs, c :: cs, hfs, fun _ => hle, ?_, ?_, ?_, ?_⟩
      · intro h; exact absurd h hc2
      · intro h; exact absurd h hc2
      · intro _ h; exact absurd h hlen
      · intro h; exact absurd h hc2
  · have hc2 : 256 ≤ c := Nat.le_of_not_lt hc
    rw [if_neg hc] at hfit
    by_cases hlen : 2 < (c :: cs).length
    · have hcast : (3 : ℚ) ≤ ((c :: cs).length : ℚ) := by exact_mod_cast hlen
      have hlt : (fittedSize c cs o : ℚ) < 8 := by
        rw [hfit]
        exact round_lt_eight _ _ (by norm_num) (by linarith) hposn
      refine ⟨some 16, toUpperCase [c], ?_, ?_, ?_, ?_, ?_, ?_⟩
      · rw [getFontSize_of_lt c cs o 8 hmin hlt, hmax]
      · intro h; exact absurd h hc
      · intro _
        rw [toUpperCase_singleton]
        exact (upperUnit_length c).2
      · intro _ h; exact h
      · intro h; exact absurd h hc
      · intro _ _; exact ⟨rfl, rfl⟩
    · have hle : (c :: cs).length ≤ 2 := Nat.le_of_not_lt hlen
      have hcast : ((c :: cs).length : ℚ) ≤ 2 := by exact_mod_cast hle
      have hge : (8 : ℚ) ≤ (fittedSize c cs o : ℚ) := by
        rw [hfit]
        exact eight_le_round _ _ (by norm_num) (by linarith) hposn
      obtain ⟨fs, hfs⟩ := getFontSize_of_ge c cs o 8 hmin hge
      refine ⟨fs, c :: cs, hfs, ?_, fun _ => le_trans hle (by decide), fun _ _ => hle, ?_, ?_⟩
      · intro h; exact absurd h hc
      · intro h; exact absurd h hc
      · intro _ h; exact absurd h hlen

/-- Instance of C17 (amended) at the six-character label `smithy` with the default
options: it is replaced by `S`, with font size 16. -/
theorem getFontSize_default_length_witness :
    ∃ fs l, AvatarImage.getFontSize ⟨some (js "smithy"), namedavatar.options⟩ =
        Except.ok (fs, ⟨some l, namedavatar.options⟩) ∧
      l = js "S" ∧ fs = some 16 :=
  (getFontSize_default_length 115 (js "mithy") namedavatar.options rfl rfl (Or.inl rfl)).elim
    fun fs h => h.elim fun l hl =>
      ⟨fs, l, hl.1, hl.2.2.2.2.1 (by decide) (by decide)⟩

end NamedAvatar
